import Mathlib

/-!
Verification of the request/response correlation layer of the
`dds_experiments` LED-control RPC demo (`dds_led_control_rpc/client.cpp`
and `dds_led_control_rpc/server.cpp`).

The transport (DDS) is external; we embed the parts that hold the
algorithmic logic: the client's pending-request table with its
drain-and-match / timeout-sweep loop (`LedClient::checkResponses`,
`LedClient::sendRequest`) and the server's request processor
(`LedServer::processRequest`).  Nat stands for time: the steady clock
milliseconds, modelled as `Nat`.
-/

namespace LedControl

/-- Modelled from the spec: the message schema lives in `LedControl.hpp`
(generated from IDL, not part of the repository sources).  The spec gives
`color: enum{RED,GREEN,BLUE}`; the client's
`static_cast<led_control::LedColor>(color_dist(gen))` with `color_dist{0, 2}`
and the server's array comment `// RED, GREEN, BLUE` fix the underlying
values RED=0, GREEN=1, BLUE=2. -/
inductive LedColor where
  | RED
  | GREEN
  | BLUE
deriving DecidableEq, Repr

/-- `static_cast<int>(request.color())` in `LedServer::processRequest`. -/
def colorIndex : LedColor → Nat
  | .RED => 0
  | .GREEN => 1
  | .BLUE => 2

/-- Modelled from the spec: Request wire shape
`{ id: uint64, color: enum{RED,GREEN,BLUE}, state: bool }` from
`LedControl.hpp`. -/
structure LedRequest where
  color : LedColor
  state : Bool
  request_id : Nat
deriving DecidableEq, Repr

/-- Modelled from the spec: Response wire shape
`{ request_id: uint64, success: bool, message: string,
color: enum{RED,GREEN,BLUE}, state: bool }` from `LedControl.hpp`. -/
structure LedResponse where
  success : Bool
  message : String
  color : LedColor
  state : Bool
  request_id : Nat
deriving DecidableEq, Repr

/-! ## Server side (`server.cpp`) -/

/-- `bool led_states[3] = {false, false, false}; // RED, GREEN, BLUE` -/
structure ServerState where
  led_states : List Bool
deriving DecidableEq, Repr

def initServerState : ServerState := ⟨[false, false, false]⟩

/-- `LedServer::processRequest` (`server.cpp` lines 43-70): writes
`led_states[static_cast<int>(request.color())] = request.state()` and
builds the response echoing color, state and request id with
`success = true` and the fixed message. -/
def processRequest (s : ServerState) (request : LedRequest) :
    ServerState × LedResponse :=
  let color_index := colorIndex request.color
  let led_states' := s.led_states.set color_index request.state
  (⟨led_states'⟩,
   { success := true
     message := "LED control successful"
     color := request.color
     state := request.state
     request_id := request.request_id })

/-! ## Client side (`client.cpp`) -/

/-- `std::map<unsigned long, steady_clock::time_point> pending_requests`,
as an association list in key order. -/
abbrev PendingTable := List (Nat × Nat)

/-- The fixed 5-second timeout of `checkResponses`, in milliseconds. -/
def deadline : Nat := 5000

/-- `pending_requests.find(rid)`, returning the stored issue timestamp. -/
def lookupPending : PendingTable → Nat → Option Nat
  | [], _ => none
  | e :: rest, rid => if e.1 = rid then some e.2 else lookupPending rest rid

/-- `pending_requests.erase(it)` for the iterator found for key `rid`. -/
def erasePending : PendingTable → Nat → PendingTable
  | [], _ => []
  | e :: rest, rid => if e.1 = rid then rest else e :: erasePending rest rid

/-- `pending_requests[rid] = now` (insert-or-assign of `std::map`). -/
def insertPending : PendingTable → Nat → Nat → PendingTable
  | [], rid, now => [(rid, now)]
  | e :: rest, rid, now =>
      if e.1 = rid then (rid, now) :: rest else e :: insertPending rest rid now

/-- The table's keys are pairwise distinct (guaranteed by the monotonic
request counter; an invariant of `std::map` as well). -/
def keysNodup (t : PendingTable) : Prop := (t.map Prod.fst).Nodup

instance (t : PendingTable) : Decidable (keysNodup t) :=
  inferInstanceAs (Decidable ((t.map Prod.fst).Nodup))

/-- One sample as delivered by `response_reader.take()`: the transport's
validity flag (`sample.info().valid()`) plus the response data. -/
structure Sample where
  valid : Bool
  data : LedResponse
deriving DecidableEq, Repr

/-- The matched-result event: everything `checkResponses` reports on a
match (response fields plus the computed latency). -/
structure MatchResult where
  request_id : Nat
  success : Bool
  message : String
  color : LedColor
  state : Bool
  latency : Nat
deriving DecidableEq, Repr

/-- The timeout event: `"Timeout for request ID: " << it->first`. -/
structure TimeoutEvent where
  request_id : Nat
deriving DecidableEq, Repr

/-- First half of `LedClient::checkResponses` (`client.cpp` lines 71-93):
for each taken sample, if valid, look its `request_id` up in the pending
table; on a hit report the match with `latency = now - issue` and erase
the entry; otherwise fall through silently. -/
def drainAndMatch (t : PendingTable) (samples : List Sample) (now : Nat) :
    PendingTable × List MatchResult :=
  match samples with
  | [] => (t, [])
  | s :: rest =>
      if s.valid then
        match lookupPending t s.data.request_id with
        | some issue =>
            let m : MatchResult :=
              { request_id := s.data.request_id
                success := s.data.success
                message := s.data.message
                color := s.data.color
                state := s.data.state
                latency := now - issue }
            let res := drainAndMatch (erasePending t s.data.request_id) rest now
            (res.1, m :: res.2)
        | none => drainAndMatch t rest now
      else drainAndMatch t rest now

/-- Second half of `LedClient::checkResponses` (`client.cpp` lines 95-109):
walk the table once; every entry with `now - issue > 5s` emits a timeout
event and is erased (`it = pending_requests.erase(it)`), every other entry
is kept (`++it`). -/
def sweep (t : PendingTable) (now : Nat) :
    PendingTable × List TimeoutEvent :=
  match t with
  | [] => ([], [])
  | e :: rest =>
      let res := sweep rest now
      if deadline < now - e.2 then
        (res.1, ⟨e.1⟩ :: res.2)
      else
        (e :: res.1, res.2)

/-- `LedClient::checkResponses` (`client.cpp` lines 65-110): drain and
match all newly arrived responses, then run the timeout sweep. -/
def checkResponses (t : PendingTable) (samples : List Sample) (now : Nat) :
    PendingTable × List MatchResult × List TimeoutEvent :=
  let drained := drainAndMatch t samples now
  let swept := sweep drained.1 now
  (swept.1, drained.2, swept.2)

/-- The modulus of the client's `unsigned long request_counter`
(`client.cpp` line 30): a 64-bit unsigned integer wraps modulo `2 ^ 64`. -/
def ulongMod : Nat := 2 ^ 64

/-- Client-side correlation state: `request_counter{0}` and the pending
table.  The counter always holds a value below `ulongMod`. -/
structure ClientState where
  request_counter : Nat
  pending_requests : PendingTable
deriving DecidableEq, Repr

def initClientState : ClientState := ⟨0, []⟩

/-- `LedClient::sendRequest` (`client.cpp` lines 49-63): builds the request
with `request_id(++request_counter)` — the pre-increment of the
`unsigned long` counter wraps modulo `2 ^ 64` — publishes it, and records
`pending_requests[request.request_id()] = steady_clock::now()`. -/
def sendRequest (s : ClientState) (color : LedColor) (state : Bool)
    (now : Nat) : ClientState × LedRequest :=
  let rid := (s.request_counter + 1) % ulongMod
  (⟨rid, insertPending s.pending_requests rid now⟩,
   { color := color, state := state, request_id := rid })

/-- A sequence of `sendRequest` calls, returning the built requests in
order. -/
def sendMany (s : ClientState) (calls : List (LedColor × Bool × Nat)) :
    ClientState × List LedRequest :=
  match calls with
  | [] => (s, [])
  | c :: rest =>
      let step := sendRequest s c.1 c.2.1 c.2.2
      let res := sendMany step.1 rest
      (res.1, step.2 :: res.2)

/-- Number of match results carrying a given request id. -/
def countMatchesFor (rid : Nat) (ms : List MatchResult) : Nat :=
  (ms.filter fun m => m.request_id == rid).length

/-- Number of timeout events carrying a given request id. -/
def countTimeoutsFor (rid : Nat) (ts : List TimeoutEvent) : Nat :=
  (ts.filter fun e => e.request_id == rid).length

/-- A whole client session after the sends: one `checkResponses` per tick,
each tick bringing a batch of samples and the tick's clock reading. -/
def runSession (t : PendingTable) (ticks : List (List Sample × Nat)) :
    PendingTable × List MatchResult × List TimeoutEvent :=
  match ticks with
  | [] => (t, [], [])
  | tk :: rest =>
      let this := checkResponses t tk.1 tk.2
      let res := runSession this.1 rest
      (res.1, this.2.1 ++ res.2.1, this.2.2 ++ res.2.2)

/-- Terminal events (matches plus timeouts) emitted for `rid` over a
session. -/
def totalEventsFor (rid : Nat)
    (res : PendingTable × List MatchResult × List TimeoutEvent) : Nat :=
  countMatchesFor rid res.2.1 + countTimeoutsFor rid res.2.2

/-! ## Basic lemmas about the table and the event counters -/

theorem lookupPending_eq_none (t : PendingTable) (rid : Nat) :
    lookupPending t rid = none ↔ rid ∉ t.map Prod.fst := by
  induction t with
  | nil => simp [lookupPending]
  | cons e rest ih =>
      by_cases h : e.1 = rid
      · simp [lookupPending, h]
      · simp [lookupPending, h, ih, Ne.symm h]

theorem lookupPending_erase_ne (t : PendingTable) (rid r : Nat)
    (hne : r ≠ rid) :
    lookupPending (erasePending t rid) r = lookupPending t r := by
  induction t with
  | nil => rfl
  | cons e rest ih =>
      by_cases h : e.1 = rid
      · simp only [erasePending, if_pos h, lookupPending]
        rw [if_neg (by omega)]
      · simp only [erasePending, if_neg h, lookupPending]
        by_cases h2 : e.1 = r
        · simp [h2]
        · simp [h2, ih]

theorem lookupPending_erase_self (t : PendingTable) (rid : Nat)
    (hnd : keysNodup t) :
    lookupPending (erasePending t rid) rid = none := by
  induction t with
  | nil => rfl
  | cons e rest ih =>
      simp only [keysNodup, List.map_cons, List.nodup_cons] at hnd
      by_cases h : e.1 = rid
      · simp only [erasePending, if_pos h]
        rw [lookupPending_eq_none]
        rw [h] at hnd
        exact hnd.1
      · simp only [erasePending, if_neg h, lookupPending, if_neg h]
        exact ih hnd.2

theorem mem_keys_erase (t : PendingTable) (rid x : Nat)
    (hx : x ∈ (erasePending t rid).map Prod.fst) :
    x ∈ t.map Prod.fst := by
  induction t with
  | nil => simp [erasePending] at hx
  | cons e rest ih =>
      by_cases h : e.1 = rid
      · simp only [erasePending, if_pos h] at hx
        simp only [List.map_cons, List.mem_cons]
        exact Or.inr hx
      · simp only [erasePending, if_neg h, List.map_cons,
          List.mem_cons] at hx ⊢
        rcases hx with hx | hx
        · exact Or.inl hx
        · exact Or.inr (ih hx)

theorem keysNodup_erase (t : PendingTable) (rid : Nat)
    (hnd : keysNodup t) : keysNodup (erasePending t rid) := by
  induction t with
  | nil => exact hnd
  | cons e rest ih =>
      simp only [keysNodup, List.map_cons, List.nodup_cons] at hnd
      by_cases h : e.1 = rid
      · simp only [erasePending, if_pos h, keysNodup]
        exact hnd.2
      · simp only [erasePending, if_neg h, keysNodup, List.map_cons,
          List.nodup_cons]
        exact ⟨fun hmem => hnd.1 (mem_keys_erase rest rid e.1 hmem),
          ih hnd.2⟩

theorem countMatchesFor_nil (rid : Nat) : countMatchesFor rid [] = 0 := rfl

theorem countMatchesFor_cons (rid : Nat) (m : MatchResult)
    (ms : List MatchResult) :
    countMatchesFor rid (m :: ms) =
      (if m.request_id = rid then 1 else 0) + countMatchesFor rid ms := by
  simp only [countMatchesFor, List.filter_cons]
  by_cases h : m.request_id = rid
  · simp [h, Nat.add_comm]
  · simp [h]

theorem countMatchesFor_append (rid : Nat) (a b : List MatchResult) :
    countMatchesFor rid (a ++ b) =
      countMatchesFor rid a + countMatchesFor rid b := by
  simp [countMatchesFor, List.filter_append]

theorem countMatchesFor_eq_zero (rid : Nat) (ms : List MatchResult) :
    countMatchesFor rid ms = 0 ↔ ∀ m ∈ ms, m.request_id ≠ rid := by
  simp [countMatchesFor, List.length_eq_zero, List.filter_eq_nil_iff]

theorem countTimeoutsFor_nil (rid : Nat) : countTimeoutsFor rid [] = 0 := rfl

theorem countTimeoutsFor_cons (rid : Nat) (e : TimeoutEvent)
    (ts : List TimeoutEvent) :
    countTimeoutsFor rid (e :: ts) =
      (if e.request_id = rid then 1 else 0) + countTimeoutsFor rid ts := by
  simp only [countTimeoutsFor, List.filter_cons]
  by_cases h : e.request_id = rid
  · simp [h, Nat.add_comm]
  · simp [h]

theorem countTimeoutsFor_append (rid : Nat) (a b : List TimeoutEvent) :
    countTimeoutsFor rid (a ++ b) =
      countTimeoutsFor rid a + countTimeoutsFor rid b := by
  simp [countTimeoutsFor, List.filter_append]

/-! ## Lemmas about drainAndMatch -/

theorem drainAndMatch_not_pending (samples : List Sample) (t : PendingTable)
    (now : Nat) (rid : Nat) (h : lookupPending t rid = none) :
    lookupPending (drainAndMatch t samples now).1 rid = none ∧
    countMatchesFor rid (drainAndMatch t samples now).2 = 0 := by
  induction samples generalizing t with
  | nil => exact ⟨h, rfl⟩
  | cons s rest ih =>
      by_cases hv : s.valid = true
      · cases hl : lookupPending t s.data.request_id with
        | none => simpa [drainAndMatch, hv, hl] using ih t h
        | some issue =>
            have hne : s.data.request_id ≠ rid := by
              intro he
              rw [he, h] at hl
              cases hl
            have h' :
                lookupPending (erasePending t s.data.request_id) rid = none := by
              rw [lookupPending_erase_ne _ _ _ (Ne.symm hne)]
              exact h
            have hrest := ih (erasePending t s.data.request_id) h'
            refine ⟨?_, ?_⟩
            · simpa [drainAndMatch, hv, hl] using hrest.1
            · simp [drainAndMatch, hv, hl, countMatchesFor_cons, hne, hrest.2]
      · simpa [drainAndMatch, hv] using ih t h

theorem keysNodup_drainAndMatch (samples : List Sample) (t : PendingTable)
    (now : Nat) (hnd : keysNodup t) :
    keysNodup (drainAndMatch t samples now).1 := by
  induction samples generalizing t with
  | nil => exact hnd
  | cons s rest ih =>
      by_cases hv : s.valid = true
      · cases hl : lookupPending t s.data.request_id with
        | none => simpa [drainAndMatch, hv, hl] using ih t hnd
        | some issue =>
            simpa [drainAndMatch, hv, hl] using
              ih _ (keysNodup_erase t _ hnd)
      · simpa [drainAndMatch, hv] using ih t hnd

theorem drainAndMatch_found (samples : List Sample) (t : PendingTable)
    (now : Nat) (rid : Nat) (issue : Nat) (hnd : keysNodup t)
    (h : lookupPending t rid = some issue)
    (hs : ∃ s ∈ samples, s.valid = true ∧ s.data.request_id = rid) :
    countMatchesFor rid (drainAndMatch t samples now).2 = 1 ∧
    lookupPending (drainAndMatch t samples now).1 rid = none ∧
    ∀ m ∈ (drainAndMatch t samples now).2,
      m.request_id = rid → m.latency = now - issue := by
  induction samples generalizing t with
  | nil =>
      obtain ⟨s, hmem, _⟩ := hs
      exact absurd hmem (List.not_mem_nil s)
  | cons s rest ih =>
      by_cases hv : s.valid = true
      · cases hl : lookupPending t s.data.request_id with
        | none =>
            have hw : ∃ w ∈ rest, w.valid = true ∧ w.data.request_id = rid := by
              obtain ⟨w, hmem, hwv, hwid⟩ := hs
              rcases List.mem_cons.mp hmem with rfl | hmem'
              · rw [hwid, h] at hl
                cases hl
              · exact ⟨w, hmem', hwv, hwid⟩
            simpa [drainAndMatch, hv, hl] using ih t hnd h hw
        | some issue' =>
            by_cases hid : s.data.request_id = rid
            · subst hid
              rw [h] at hl
              injection hl with hii
              subst hii
              have hgone :
                  lookupPending (erasePending t s.data.request_id)
                    s.data.request_id = none :=
                lookupPending_erase_self t s.data.request_id hnd
              have hrest := drainAndMatch_not_pending rest _ now _ hgone
              refine ⟨?_, ?_, ?_⟩
              · simp [drainAndMatch, hv, h, countMatchesFor_cons, hrest.2]
              · simpa [drainAndMatch, hv, h] using hrest.1
              · intro m hm hmid
                simp only [drainAndMatch, hv, if_true, h] at hm
                rcases List.mem_cons.mp hm with rfl | hm'
                · rfl
                · exact absurd hmid
                    ((countMatchesFor_eq_zero _ _).mp hrest.2 m hm')
            · have h' :
                  lookupPending (erasePending t s.data.request_id) rid =
                    some issue := by
                rw [lookupPending_erase_ne _ _ _ (Ne.symm hid)]
                exact h
              have hw : ∃ w ∈ rest, w.valid = true ∧ w.data.request_id = rid := by
                obtain ⟨w, hmem, hwv, hwid⟩ := hs
                rcases List.mem_cons.mp hmem with rfl | hmem'
                · exact absurd hwid hid
                · exact ⟨w, hmem', hwv, hwid⟩
              have hrest := ih (erasePending t s.data.request_id)
                (keysNodup_erase t _ hnd) h' hw
              refine ⟨?_, ?_, ?_⟩
              · simp [drainAndMatch, hv, hl, countMatchesFor_cons, hid,
                  hrest.1]
              · simpa [drainAndMatch, hv, hl] using hrest.2.1
              · intro m hm hmid
                simp only [drainAndMatch, hv, if_true, hl] at hm
                rcases List.mem_cons.mp hm with rfl | hm'
                · exact absurd hmid hid
                · exact hrest.2.2 m hm' hmid
      · have hw : ∃ w ∈ rest, w.valid = true ∧ w.data.request_id = rid := by
          obtain ⟨w, hmem, hwv, hwid⟩ := hs
          rcases List.mem_cons.mp hmem with rfl | hmem'
          · exact absurd hwv hv
          · exact ⟨w, hmem', hwv, hwid⟩
        simpa [drainAndMatch, hv] using ih t hnd h hw

theorem drainAndMatch_cases (samples : List Sample) (t : PendingTable)
    (now : Nat) (rid : Nat) (issue : Nat) (hnd : keysNodup t)
    (h : lookupPending t rid = some issue) :
    (countMatchesFor rid (drainAndMatch t samples now).2 = 1 ∧
      lookupPending (drainAndMatch t samples now).1 rid = none) ∨
    (countMatchesFor rid (drainAndMatch t samples now).2 = 0 ∧
      lookupPending (drainAndMatch t samples now).1 rid = some issue) := by
  induction samples generalizing t with
  | nil => exact Or.inr ⟨rfl, h⟩
  | cons s rest ih =>
      by_cases hv : s.valid = true
      · cases hl : lookupPending t s.data.request_id with
        | none => simpa [drainAndMatch, hv, hl] using ih t hnd h
        | some issue' =>
            by_cases hid : s.data.request_id = rid
            · subst hid
              rw [h] at hl
              injection hl with hii
              subst hii
              have hgone :
                  lookupPending (erasePending t s.data.request_id)
                    s.data.request_id = none :=
                lookupPending_erase_self t s.data.request_id hnd
              have hrest := drainAndMatch_not_pending rest _ now _ hgone
              refine Or.inl ⟨?_, ?_⟩
              · simp [drainAndMatch, hv, h, countMatchesFor_cons, hrest.2]
              · simpa [drainAndMatch, hv, h] using hrest.1
            · have h' :
                  lookupPending (erasePending t s.data.request_id) rid =
                    some issue := by
                rw [lookupPending_erase_ne _ _ _ (Ne.symm hid)]
                exact h
              have hrest := ih (erasePending t s.data.request_id)
                (keysNodup_erase t _ hnd) h'
              rcases hrest with ⟨c1, c2⟩ | ⟨c1, c2⟩
              · refine Or.inl ⟨?_, ?_⟩
                · simp [drainAndMatch, hv, hl, countMatchesFor_cons, hid, c1]
                · simpa [drainAndMatch, hv, hl] using c2
              · refine Or.inr ⟨?_, ?_⟩
                · simp [drainAndMatch, hv, hl, countMatchesFor_cons, hid, c1]
                · simpa [drainAndMatch, hv, hl] using c2
      · simpa [drainAndMatch, hv] using ih t hnd h

/-! ## Lemmas about sweep -/

theorem sweep_eq_filter (t : PendingTable) (now : Nat) :
    sweep t now =
      (t.filter (fun e => !decide (deadline < now - e.2)),
       (t.filter (fun e => decide (deadline < now - e.2))).map
         (fun e => ⟨e.1⟩)) := by
  induction t with
  | nil => rfl
  | cons e rest ih =>
      by_cases h : deadline < now - e.2
      · simp [sweep, h, ih, List.filter_cons]
      · simp [sweep, h, ih, List.filter_cons]

theorem sweep_not_pending (t : PendingTable) (now : Nat) (rid : Nat)
    (h : lookupPending t rid = none) :
    lookupPending (sweep t now).1 rid = none ∧
    countTimeoutsFor rid (sweep t now).2 = 0 := by
  induction t with
  | nil => exact ⟨rfl, rfl⟩
  | cons e rest ih =>
      simp only [lookupPending] at h
      by_cases he : e.1 = rid
      · simp [he] at h
      · simp only [if_neg he] at h
        have hrest := ih h
        by_cases hexp : deadline < now - e.2
        · refine ⟨?_, ?_⟩
          · simpa [sweep, hexp] using hrest.1
          · simp [sweep, hexp, countTimeoutsFor_cons, he, hrest.2]
        · refine ⟨?_, ?_⟩
          · simpa [sweep, hexp, lookupPending, he] using hrest.1
          · simpa [sweep, hexp] using hrest.2

theorem keysNodup_sweep (t : PendingTable) (now : Nat)
    (hnd : keysNodup t) : keysNodup (sweep t now).1 := by
  rw [sweep_eq_filter]
  exact List.Nodup.sublist
    ((List.filter_sublist t).map Prod.fst) hnd

theorem sweep_found (t : PendingTable) (now : Nat) (rid : Nat)
    (issue : Nat) (hnd : keysNodup t)
    (h : lookupPending t rid = some issue) :
    if deadline < now - issue then
      countTimeoutsFor rid (sweep t now).2 = 1 ∧
      lookupPending (sweep t now).1 rid = none
    else
      countTimeoutsFor rid (sweep t now).2 = 0 ∧
      lookupPending (sweep t now).1 rid = some issue := by
  induction t with
  | nil => cases h
  | cons e rest ih =>
      simp only [keysNodup, List.map_cons, List.nodup_cons] at hnd
      simp only [lookupPending] at h
      by_cases he : e.1 = rid
      · rw [if_pos he] at h
        injection h with hi
        have hnone : lookupPending rest rid = none := by
          rw [lookupPending_eq_none]
          rw [he] at hnd
          exact hnd.1
        have hrest := sweep_not_pending rest now rid hnone
        by_cases hexp : deadline < now - issue
        · rw [if_pos hexp]
          refine ⟨?_, ?_⟩
          · simp [sweep, hi, hexp, countTimeoutsFor_cons, he, hrest.2]
          · simpa [sweep, hi, hexp] using hrest.1
        · rw [if_neg hexp]
          refine ⟨?_, ?_⟩
          · simpa [sweep, hi, hexp] using hrest.2
          · simp [sweep, hi, hexp, lookupPending, he]
      · rw [if_neg he] at h
        have hrest := ih hnd.2 h
        by_cases hexp : deadline < now - issue
        · rw [if_pos hexp]
          rw [if_pos hexp] at hrest
          by_cases heexp : deadline < now - e.2
          · refine ⟨?_, ?_⟩
            · simp [sweep, heexp, countTimeoutsFor_cons, he, hrest.1]
            · simpa [sweep, heexp] using hrest.2
          · refine ⟨?_, ?_⟩
            · simpa [sweep, heexp] using hrest.1
            · simpa [sweep, heexp, lookupPending, he] using hrest.2
        · rw [if_neg hexp]
          rw [if_neg hexp] at hrest
          by_cases heexp : deadline < now - e.2
          · refine ⟨?_, ?_⟩
            · simp [sweep, heexp, countTimeoutsFor_cons, he, hrest.1]
            · simpa [sweep, heexp] using hrest.2
          · refine ⟨?_, ?_⟩
            · simpa [sweep, heexp] using hrest.1
            · simpa [sweep, heexp, lookupPending, he] using hrest.2

/-! ## Lemmas about insertPending and sendMany -/

theorem lookupPending_insert_self (t : PendingTable) (rid : Nat)
    (now : Nat) :
    lookupPending (insertPending t rid now) rid = some now := by
  induction t with
  | nil => simp [insertPending, lookupPending]
  | cons e rest ih =>
      by_cases h : e.1 = rid
      · simp [insertPending, h, lookupPending]
      · simp [insertPending, h, lookupPending, ih]

theorem sendMany_ids (calls : List (LedColor × Bool × Nat))
    (s : ClientState) (c : Nat) (hc : s.request_counter = c % ulongMod) :
    (sendMany s calls).2.map LedRequest.request_id =
      (List.range' (c + 1) calls.length).map (· % ulongMod) ∧
    (sendMany s calls).1.request_counter =
      (c + calls.length) % ulongMod := by
  induction calls generalizing s c with
  | nil =>
      refine ⟨rfl, ?_⟩
      simpa using hc
  | cons call rest ih =>
      have hstep :
          (sendRequest s call.1 call.2.1 call.2.2).1.request_counter =
            (c + 1) % ulongMod := by
        show (s.request_counter + 1) % ulongMod = (c + 1) % ulongMod
        rw [hc, Nat.mod_add_mod]
      have ihr := ih (sendRequest s call.1 call.2.1 call.2.2).1 (c + 1) hstep
      refine ⟨?_, ?_⟩
      · show (sendRequest s call.1 call.2.1 call.2.2).2.request_id ::
            (sendMany (sendRequest s call.1 call.2.1 call.2.2).1
              rest).2.map LedRequest.request_id =
          (List.range' (c + 1) (rest.length + 1)).map (· % ulongMod)
        rw [List.range'_succ, List.map_cons]
        refine congrArg₂ _ ?_ ihr.1
        show (s.request_counter + 1) % ulongMod = (c + 1) % ulongMod
        rw [hc, Nat.mod_add_mod]
      · show (sendMany (sendRequest s call.1 call.2.1 call.2.2).1
            rest).1.request_counter = (c + (rest.length + 1)) % ulongMod
        rw [ihr.2]
        congr 1
        omega

theorem chain'_lt_range' (a n : Nat) :
    List.Chain' (· < ·) (List.range' a n) := by
  induction n generalizing a with
  | zero => exact List.chain'_nil
  | succ m ih =>
      rw [List.range'_succ]
      cases m with
      | zero => simp
      | succ k =>
          rw [List.range'_succ]
          exact List.Chain'.cons (by omega)
            (by rw [← List.range'_succ]; exact ih (a + 1))

/-! ## Lemmas about checkResponses and runSession -/

theorem checkResponses_not_pending (t : PendingTable)
    (samples : List Sample) (now : Nat) (rid : Nat)
    (h : lookupPending t rid = none) :
    lookupPending (checkResponses t samples now).1 rid = none ∧
    countMatchesFor rid (checkResponses t samples now).2.1 = 0 ∧
    countTimeoutsFor rid (checkResponses t samples now).2.2 = 0 := by
  have hd := drainAndMatch_not_pending samples t now rid h
  have hsw := sweep_not_pending (drainAndMatch t samples now).1 now rid hd.1
  exact ⟨hsw.1, hd.2, hsw.2⟩

theorem keysNodup_checkResponses (t : PendingTable) (samples : List Sample)
    (now : Nat) (hnd : keysNodup t) :
    keysNodup (checkResponses t samples now).1 :=
  keysNodup_sweep _ now (keysNodup_drainAndMatch samples t now hnd)

theorem checkResponses_cases (t : PendingTable) (samples : List Sample)
    (now : Nat) (rid : Nat) (issue : Nat) (hnd : keysNodup t)
    (h : lookupPending t rid = some issue) :
    (countMatchesFor rid (checkResponses t samples now).2.1 +
       countTimeoutsFor rid (checkResponses t samples now).2.2 = 1 ∧
     lookupPending (checkResponses t samples now).1 rid = none) ∨
    (countMatchesFor rid (checkResponses t samples now).2.1 +
       countTimeoutsFor rid (checkResponses t samples now).2.2 = 0 ∧
     lookupPending (checkResponses t samples now).1 rid = some issue ∧
     ¬ deadline < now - issue) := by
  have hndd := keysNodup_drainAndMatch samples t now hnd
  rcases drainAndMatch_cases samples t now rid issue hnd h with
    ⟨c1, c2⟩ | ⟨c1, c2⟩
  · have hsw := sweep_not_pending (drainAndMatch t samples now).1 now rid c2
    refine Or.inl ⟨?_, hsw.1⟩
    show countMatchesFor rid (drainAndMatch t samples now).2 +
      countTimeoutsFor rid (sweep (drainAndMatch t samples now).1 now).2 = 1
    rw [c1, hsw.2]
  · have hsf := sweep_found (drainAndMatch t samples now).1 now rid issue
      hndd c2
    by_cases hexp : deadline < now - issue
    · rw [if_pos hexp] at hsf
      refine Or.inl ⟨?_, hsf.2⟩
      show countMatchesFor rid (drainAndMatch t samples now).2 +
        countTimeoutsFor rid (sweep (drainAndMatch t samples now).1 now).2 = 1
      rw [c1, hsf.1]
    · rw [if_neg hexp] at hsf
      refine Or.inr ⟨?_, hsf.2, hexp⟩
      show countMatchesFor rid (drainAndMatch t samples now).2 +
        countTimeoutsFor rid (sweep (drainAndMatch t samples now).1 now).2 = 0
      rw [c1, hsf.1]

theorem runSession_not_pending (ticks : List (List Sample × Nat))
    (t : PendingTable) (rid : Nat) (h : lookupPending t rid = none) :
    totalEventsFor rid (runSession t ticks) = 0 ∧
    lookupPending (runSession t ticks).1 rid = none := by
  induction ticks generalizing t with
  | nil => exact ⟨rfl, h⟩
  | cons tk rest ih =>
      have htick := checkResponses_not_pending t tk.1 tk.2 rid h
      obtain ⟨h0, h1⟩ := ih (checkResponses t tk.1 tk.2).1 htick.1
      refine ⟨?_, h1⟩
      simp only [totalEventsFor, runSession, countMatchesFor_append,
        countTimeoutsFor_append] at h0 ⊢
      omega

theorem runSession_le_one (ticks : List (List Sample × Nat))
    (t : PendingTable) (rid : Nat) (issue : Nat) (hnd : keysNodup t)
    (h : lookupPending t rid = some issue) :
    totalEventsFor rid (runSession t ticks) ≤ 1 := by
  induction ticks generalizing t issue with
  | nil => simp [runSession, totalEventsFor, countMatchesFor_nil,
      countTimeoutsFor_nil]
  | cons tk rest ih =>
      have hnd' := keysNodup_checkResponses t tk.1 tk.2 hnd
      rcases checkResponses_cases t tk.1 tk.2 rid issue hnd h with
        ⟨c1, c2⟩ | ⟨c1, c2, c3⟩
      · obtain ⟨h0, _⟩ := runSession_not_pending rest _ rid c2
        simp only [totalEventsFor, runSession, countMatchesFor_append,
          countTimeoutsFor_append] at h0 ⊢
        omega
      · have hrest := ih _ issue hnd' c2
        simp only [totalEventsFor, runSession, countMatchesFor_append,
          countTimeoutsFor_append] at hrest ⊢
        omega

theorem runSession_eq_one (ticks : List (List Sample × Nat))
    (t : PendingTable) (rid : Nat) (issue : Nat) (hnd : keysNodup t)
    (h : lookupPending t rid = some issue)
    (hexp : ∃ tk ∈ ticks, issue + deadline < tk.2) :
    totalEventsFor rid (runSession t ticks) = 1 := by
  induction ticks generalizing t with
  | nil =>
      obtain ⟨tk, hmem, _⟩ := hexp
      exact absurd hmem (List.not_mem_nil tk)
  | cons tk rest ih =>
      have hnd' := keysNodup_checkResponses t tk.1 tk.2 hnd
      rcases checkResponses_cases t tk.1 tk.2 rid issue hnd h with
        ⟨c1, c2⟩ | ⟨c1, c2, c3⟩
      · obtain ⟨h0, _⟩ := runSession_not_pending rest _ rid c2
        simp only [totalEventsFor, runSession, countMatchesFor_append,
          countTimeoutsFor_append] at h0 ⊢
        omega
      · have hw : ∃ w ∈ rest, issue + deadline < w.2 := by
          obtain ⟨w, hmem, hwt⟩ := hexp
          rcases List.mem_cons.mp hmem with rfl | hmem'
          · have hcontra : deadline < w.2 - issue := by omega
            exact absurd hcontra c3
          · exact ⟨w, hmem', hwt⟩
        have hrest := ih _ hnd' c2 hw
        simp only [totalEventsFor, runSession, countMatchesFor_append,
          countTimeoutsFor_append] at hrest ⊢
        omega

/-- Every enumeration member maps to an index below 3. -/
theorem colorIndex_lt_three (c : LedColor) : colorIndex c < 3 := by
  cases c <;> decide

/-! ## Claims -/

/-- C1: when a valid response whose `request_id` is a pending id `R` is
drained before the deadline, `drainAndMatch` emits exactly one
`MatchResult` for `R`, its latency is `now - issue` (a `Nat`, hence
nonnegative), and `R` is removed from the table, so that delivering the
same response again afterwards is a no-op: no further `MatchResult` and
the table is unchanged. -/
theorem correlator_matches_exactly_once (t : PendingTable)
    (R issue now : Nat) (samples : List Sample) (hnd : keysNodup t)
    (hR : lookupPending t R = some issue) (_hdl : now - issue ≤ deadline)
    (hs : ∃ s ∈ samples, s.valid = true ∧ s.data.request_id = R) :
    countMatchesFor R (drainAndMatch t samples now).2 = 1 ∧
    (∀ m ∈ (drainAndMatch t samples now).2,
        m.request_id = R → m.latency = now - issue) ∧
    lookupPending (drainAndMatch t samples now).1 R = none ∧
    (∀ (resp : LedResponse) (now2 : Nat), resp.request_id = R →
        drainAndMatch (drainAndMatch t samples now).1 [⟨true, resp⟩] now2 =
          ((drainAndMatch t samples now).1, [])) := by
  have hf := drainAndMatch_found samples t now R issue hnd hR hs
  refine ⟨hf.1, hf.2.2, hf.2.1, ?_⟩
  intro resp now2 hresp
  rw [show (⟨true, resp⟩ : Sample) :: [] = [⟨true, resp⟩] from rfl]
  simp [drainAndMatch, hresp, hf.2.1]

/-- Witness for C1: table `[(7, 100)]`, one valid response for id 7 at
clock 600. -/
theorem correlator_matches_exactly_once_witness :
    countMatchesFor 7 (drainAndMatch [(7, 100)]
        [⟨true, ⟨true, "ok", .RED, true, 7⟩⟩] 600).2 = 1 ∧
    (∀ m ∈ (drainAndMatch [(7, 100)]
        [⟨true, ⟨true, "ok", .RED, true, 7⟩⟩] 600).2,
        m.request_id = 7 → m.latency = 600 - 100) ∧
    lookupPending (drainAndMatch [(7, 100)]
        [⟨true, ⟨true, "ok", .RED, true, 7⟩⟩] 600).1 7 = none ∧
    (∀ (resp : LedResponse) (now2 : Nat), resp.request_id = 7 →
        drainAndMatch (drainAndMatch [(7, 100)]
            [⟨true, ⟨true, "ok", .RED, true, 7⟩⟩] 600).1
          [⟨true, resp⟩] now2 =
          ((drainAndMatch [(7, 100)]
            [⟨true, ⟨true, "ok", .RED, true, 7⟩⟩] 600).1, [])) :=
  correlator_matches_exactly_once [(7, 100)] 7 100 600
    [⟨true, ⟨true, "ok", .RED, true, 7⟩⟩]
    (by decide) (by decide) (by decide)
    ⟨⟨true, ⟨true, "ok", .RED, true, 7⟩⟩, by decide, by decide, by decide⟩

/-- C2 counterexample: with the deadline reached exactly
(`now - issue = deadline`, so `now - issue ≥ deadline` holds), the sweep
emits no `TimeoutEvent` and leaves the entry in the table, refuting the
claim's `≥` condition. -/
theorem sweeper_geq_counterexample :
    deadline ≤ 5000 - 0 ∧
    countTimeoutsFor 1 (sweep [(1, 0)] 5000).2 = 0 ∧
    (sweep [(1, 0)] 5000).1 = [(1, 0)] := by decide

/-- C2 (amended): the sweep emits exactly one `TimeoutEvent` for a pending
id `R` at a tick where `now - issue > deadline` STRICTLY, and none (leaving
the entry untouched) when `now - issue ≤ deadline`; it removes exactly the
entries with `now - issue > deadline` and keeps every younger entry, each
entry being visited exactly once (the result is a filter of the table). -/
theorem sweeper_times_out_exactly_expired (t : PendingTable)
    (now R issue : Nat) (hnd : keysNodup t)
    (hR : lookupPending t R = some issue) :
    (deadline < now - issue →
        countTimeoutsFor R (sweep t now).2 = 1 ∧
        lookupPending (sweep t now).1 R = none) ∧
    (¬ deadline < now - issue →
        countTimeoutsFor R (sweep t now).2 = 0 ∧
        lookupPending (sweep t now).1 R = some issue) ∧
    (sweep t now).1 = t.filter (fun e => !decide (deadline < now - e.2)) ∧
    (sweep t now).2 =
      (t.filter (fun e => decide (deadline < now - e.2))).map
        (fun e => ⟨e.1⟩) := by
  have hsf := sweep_found t now R issue hnd hR
  have hef := sweep_eq_filter t now
  refine ⟨?_, ?_, ?_, ?_⟩
  · intro hexp
    rw [if_pos hexp] at hsf
    exact hsf
  · intro hexp
    rw [if_neg hexp] at hsf
    exact hsf
  · rw [hef]
  · rw [hef]

/-- Witness for C2 (amended): table `[(1, 0), (2, 4000)]` at clock 6000:
id 1 is expired strictly, id 2 is not. -/
theorem sweeper_times_out_exactly_expired_witness :
    (deadline < 6000 - 0 →
        countTimeoutsFor 1 (sweep [(1, 0), (2, 4000)] 6000).2 = 1 ∧
        lookupPending (sweep [(1, 0), (2, 4000)] 6000).1 1 = none) ∧
    (¬ deadline < 6000 - 0 →
        countTimeoutsFor 1 (sweep [(1, 0), (2, 4000)] 6000).2 = 0 ∧
        lookupPending (sweep [(1, 0), (2, 4000)] 6000).1 1 = some 0) ∧
    (sweep [(1, 0), (2, 4000)] 6000).1 =
      [(1, 0), (2, 4000)].filter (fun e => !decide (deadline < 6000 - e.2)) ∧
    (sweep [(1, 0), (2, 4000)] 6000).2 =
      ([(1, 0), (2, 4000)].filter
        (fun e => decide (deadline < 6000 - e.2))).map (fun e => ⟨e.1⟩) :=
  sweeper_times_out_exactly_expired [(1, 0), (2, 4000)] 6000 1 0
    (by decide) (by decide)

/-- C3: per request id, terminal events are mutually exclusive over a whole
session (at most one of match/timeout is ever emitted), and once a tick's
clock strictly passes `issue + deadline` the total is exactly one — never
both, never neither.  Table membership is what decides: both counts are
driven by `lookupPending` alone. -/
theorem exactly_one_terminal_event (t : PendingTable) (R issue : Nat)
    (ticks : List (List Sample × Nat)) (hnd : keysNodup t)
    (hR : lookupPending t R = some issue) :
    totalEventsFor R (runSession t ticks) ≤ 1 ∧
    ((∃ tk ∈ ticks, issue + deadline < tk.2) →
        totalEventsFor R (runSession t ticks) = 1) :=
  ⟨runSession_le_one ticks t R issue hnd hR,
   fun hexp => runSession_eq_one ticks t R issue hnd hR hexp⟩

/-- Witness for C3: request 3 issued at clock 0; one empty tick at clock
6000 times it out, for a total of exactly one terminal event. -/
theorem exactly_one_terminal_event_witness :
    totalEventsFor 3 (runSession [(3, 0)] [([], 6000)]) ≤ 1 ∧
    ((∃ tk ∈ [(([] : List Sample), 6000)], 0 + deadline < tk.2) →
        totalEventsFor 3 (runSession [(3, 0)] [([], 6000)]) = 1) :=
  exactly_one_terminal_event [(3, 0)] 3 0 [([], 6000)]
    (by decide) (by decide)

/-- C4 counterexample: the `unsigned long` counter wraps modulo `2 ^ 64`,
so in the session that performs exactly `2 ^ 64` sends the last issued
request id is 0 — refuting the claim that every issued id is strictly
positive (and with it strict increase and uniqueness for arbitrary
sessions). -/
theorem request_ids_wrap_counterexample :
    (0 : Nat) ∈ (sendMany initClientState
        (List.replicate ulongMod (LedColor.RED, true, 0))).2.map
      LedRequest.request_id := by
  have hmod := sendMany_ids
    (List.replicate ulongMod (LedColor.RED, true, 0))
    initClientState 0 (Nat.zero_mod _).symm
  rw [hmod.1, List.length_replicate]
  have hpos : 0 < ulongMod := by
    show 0 < 2 ^ 64
    exact Nat.pos_pow_of_pos 64 (by omega)
  have hmem : ulongMod ∈ List.range' 1 ulongMod := by
    rw [List.mem_range']
    exact ⟨ulongMod - 1, by omega, by omega⟩
  have hzero : ulongMod % ulongMod = 0 := Nat.mod_self ulongMod
  exact hzero ▸ List.mem_map_of_mem (· % ulongMod) hmem

/-- C4 (amended): over any sequence of FEWER THAN `2 ^ 64` sends in one
session — before the `unsigned long` counter can wrap — the issued ids are
`1, 2, …, n`: strictly increasing, never repeated, and all strictly
positive (id 0 is not issued); moreover every `sendRequest` records
`(id, now)` in the pending table (and, being a total function, cannot
fail). -/
theorem request_ids_monotone (calls : List (LedColor × Bool × Nat))
    (hlen : calls.length < ulongMod) :
    (sendMany initClientState calls).2.map LedRequest.request_id =
      List.range' 1 calls.length ∧
    List.Chain' (· < ·)
      ((sendMany initClientState calls).2.map LedRequest.request_id) ∧
    (∀ r ∈ (sendMany initClientState calls).2, 0 < r.request_id) ∧
    ((sendMany initClientState calls).2.map LedRequest.request_id).Nodup ∧
    (∀ (s : ClientState) (c : LedColor) (st : Bool) (now : Nat),
        lookupPending (sendRequest s c st now).1.pending_requests
          (sendRequest s c st now).2.request_id = some now) := by
  have hmod := sendMany_ids calls initClientState 0 (Nat.zero_mod _).symm
  have hsmall : ∀ a ∈ List.range' 1 calls.length, a % ulongMod = a := by
    intro a ha
    rw [List.mem_range'] at ha
    obtain ⟨i, hi, he⟩ := ha
    exact Nat.mod_eq_of_lt (by omega)
  have hids : (sendMany initClientState calls).2.map LedRequest.request_id =
      List.range' 1 calls.length := by
    rw [hmod.1]
    calc (List.range' (0 + 1) calls.length).map (· % ulongMod)
        = (List.range' 1 calls.length).map id := List.map_congr_left hsmall
      _ = List.range' 1 calls.length := List.map_id _
  refine ⟨hids, ?_, ?_, ?_, ?_⟩
  · rw [hids]
    exact chain'_lt_range' 1 calls.length
  · intro r hr
    have hmem : r.request_id ∈ List.range' 1 calls.length := by
      rw [← hids]
      exact List.mem_map_of_mem _ hr
    rw [List.mem_range'] at hmem
    obtain ⟨i, _, he⟩ := hmem
    omega
  · rw [hids]
    exact List.nodup_range' 1 calls.length
  · intro s c st now
    exact lookupPending_insert_self s.pending_requests _ now

/-- Witness for C4: two sends issue ids 1 and 2. -/
theorem request_ids_monotone_witness :
    (sendMany initClientState
        [(.RED, true, 10), (.GREEN, false, 20)]).2.map
      LedRequest.request_id = List.range' 1 2 ∧
    List.Chain' (· < ·)
      ((sendMany initClientState
          [(.RED, true, 10), (.GREEN, false, 20)]).2.map
        LedRequest.request_id) ∧
    (∀ r ∈ (sendMany initClientState
        [(.RED, true, 10), (.GREEN, false, 20)]).2, 0 < r.request_id) ∧
    ((sendMany initClientState
        [(.RED, true, 10), (.GREEN, false, 20)]).2.map
      LedRequest.request_id).Nodup ∧
    (∀ (s : ClientState) (c : LedColor) (st : Bool) (now : Nat),
        lookupPending (sendRequest s c st now).1.pending_requests
          (sendRequest s c st now).2.request_id = some now) :=
  request_ids_monotone [(.RED, true, 10), (.GREEN, false, 20)] (by decide)

/-- C5: `checkResponses` drains and matches every available response before
the sweep runs, so a pending request whose response is among the tick's
samples is matched exactly once and never timed out in that tick — even if
its deadline expires at that very tick. -/
theorem response_wins_over_timeout (t : PendingTable) (R issue now : Nat)
    (samples : List Sample) (hnd : keysNodup t)
    (hR : lookupPending t R = some issue)
    (hs : ∃ s ∈ samples, s.valid = true ∧ s.data.request_id = R) :
    countMatchesFor R (checkResponses t samples now).2.1 = 1 ∧
    countTimeoutsFor R (checkResponses t samples now).2.2 = 0 := by
  have hf := drainAndMatch_found samples t now R issue hnd hR hs
  have hsw := sweep_not_pending (drainAndMatch t samples now).1 now R hf.2.1
  exact ⟨hf.1, hsw.2⟩

/-- Witness for C5: request 5 issued at clock 0, response delivered in the
tick at clock 6000 — past its deadline — still matches and is not timed
out. -/
theorem response_wins_over_timeout_witness :
    countMatchesFor 5 (checkResponses [(5, 0)]
        [⟨true, ⟨true, "ok", .BLUE, false, 5⟩⟩] 6000).2.1 = 1 ∧
    countTimeoutsFor 5 (checkResponses [(5, 0)]
        [⟨true, ⟨true, "ok", .BLUE, false, 5⟩⟩] 6000).2.2 = 0 :=
  response_wins_over_timeout [(5, 0)] 5 0 6000
    [⟨true, ⟨true, "ok", .BLUE, false, 5⟩⟩]
    (by decide) (by decide)
    ⟨⟨true, ⟨true, "ok", .BLUE, false, 5⟩⟩, by decide, by decide, by decide⟩

/-- C6: `processRequest` sets `led_states[colorIndex color] = state` and
returns a response with `success = true`, the fixed message, and color,
state and request id echoed from the request; the result is a pure
function of the request and the server state. -/
theorem processRequest_contract (s : ServerState) (r : LedRequest)
    (hlen : s.led_states.length = 3) :
    (processRequest s r).1.led_states[colorIndex r.color]? =
      some r.state ∧
    (processRequest s r).2.success = true ∧
    (processRequest s r).2.message = "LED control successful" ∧
    (processRequest s r).2.color = r.color ∧
    (processRequest s r).2.state = r.state ∧
    (processRequest s r).2.request_id = r.request_id := by
  refine ⟨?_, rfl, rfl, rfl, rfl, rfl⟩
  have hlt : colorIndex r.color < s.led_states.length := by
    rw [hlen]
    exact colorIndex_lt_three r.color
  simp [processRequest, List.getElem?_set_self hlt]

/-- Witness for C6 on the initial server state. -/
theorem processRequest_contract_witness :
    (processRequest initServerState ⟨.GREEN, true, 42⟩).1.led_states[
        colorIndex LedColor.GREEN]? = some true ∧
    (processRequest initServerState ⟨.GREEN, true, 42⟩).2.success = true ∧
    (processRequest initServerState ⟨.GREEN, true, 42⟩).2.message =
      "LED control successful" ∧
    (processRequest initServerState ⟨.GREEN, true, 42⟩).2.color =
      LedColor.GREEN ∧
    (processRequest initServerState ⟨.GREEN, true, 42⟩).2.state = true ∧
    (processRequest initServerState ⟨.GREEN, true, 42⟩).2.request_id = 42 :=
  processRequest_contract initServerState ⟨.GREEN, true, 42⟩ (by decide)

/-- C7: applying `processRequest` twice with the identical request leaves
the LED state identical to applying it once (last-write-wins with the same
value). -/
theorem processRequest_idempotent (s : ServerState) (r : LedRequest) :
    (processRequest (processRequest s r).1 r).1 = (processRequest s r).1 := by
  simp [processRequest, List.set_set]

/-- C8: a response whose `request_id` is not pending (duplicate, already
matched, already timed out, or foreign) is discarded silently — no event,
table unchanged — and the loop goes on with the remaining samples;
a transport-invalid sample is skipped without its data being inspected
(any two payloads give the same result). -/
theorem stale_and_invalid_discarded :
    (∀ (t : PendingTable) (resp : LedResponse) (rest : List Sample)
        (now : Nat), lookupPending t resp.request_id = none →
        drainAndMatch t (⟨true, resp⟩ :: rest) now =
          drainAndMatch t rest now) ∧
    (∀ (t : PendingTable) (resp : LedResponse) (now : Nat),
        lookupPending t resp.request_id = none →
        drainAndMatch t [⟨true, resp⟩] now = (t, [])) ∧
    (∀ (t : PendingTable) (d : LedResponse) (rest : List Sample)
        (now : Nat),
        drainAndMatch t (⟨false, d⟩ :: rest) now =
          drainAndMatch t rest now) ∧
    (∀ (t : PendingTable) (d1 d2 : LedResponse) (rest : List Sample)
        (now : Nat),
        drainAndMatch t (⟨false, d1⟩ :: rest) now =
          drainAndMatch t (⟨false, d2⟩ :: rest) now) := by
  refine ⟨?_, ?_, ?_, ?_⟩
  · intro t resp rest now h
    simp [drainAndMatch, h]
  · intro t resp now h
    simp [drainAndMatch, h]
  · intro t d rest now
    simp [drainAndMatch]
  · intro t d1 d2 rest now
    simp [drainAndMatch]

/-- Witness for C8: an unknown id (9 against table `[(1, 0)]`) is dropped
with no event and no table change. -/
theorem stale_and_invalid_discarded_witness :
    lookupPending [(1, 0)] (9 : Nat) = none ∧
    drainAndMatch [(1, 0)] [⟨true, ⟨true, "late", .RED, true, 9⟩⟩] 50 =
      ([(1, 0)], []) :=
  ⟨by decide,
   stale_and_invalid_discarded.2.1 [(1, 0)] ⟨true, "late", .RED, true, 9⟩
     50 (by decide)⟩

/-- C9: the server's cast of the three-member color enumeration to an
array index always lands in `{0, 1, 2}`, so the write into the
three-element `led_states` array is in bounds and total: it preserves the
array's length. -/
theorem led_index_in_bounds :
    (∀ c : LedColor, colorIndex c < 3) ∧
    (∀ (s : ServerState) (r : LedRequest), s.led_states.length = 3 →
        colorIndex r.color < s.led_states.length ∧
        (processRequest s r).1.led_states.length = 3) := by
  refine ⟨colorIndex_lt_three, ?_⟩
  intro s r hlen
  refine ⟨?_, ?_⟩
  · rw [hlen]
    exact colorIndex_lt_three r.color
  · simp [processRequest, List.length_set]
    exact hlen

/-- Witness for C9 on the initial server state. -/
theorem led_index_in_bounds_witness :
    colorIndex LedColor.BLUE < 3 ∧
    (colorIndex LedColor.BLUE < initServerState.led_states.length ∧
      (processRequest initServerState
        ⟨.BLUE, true, 1⟩).1.led_states.length = 3) :=
  ⟨led_index_in_bounds.1 .BLUE,
   led_index_in_bounds.2 initServerState ⟨.BLUE, true, 1⟩ (by decide)⟩

/-- C10: `processRequest` only writes the entry of the request's color:
every other color's LED state reads the same before and after. -/
theorem processRequest_frame (s : ServerState) (r : LedRequest)
    (c : LedColor) (hc : c ≠ r.color) :
    (processRequest s r).1.led_states[colorIndex c]? =
      s.led_states[colorIndex c]? := by
  have hne : colorIndex r.color ≠ colorIndex c := by
    revert hc
    cases c <;> cases r.color <;> decide
  simp [processRequest, List.getElem?_set_ne hne]

/-- Witness for C10: turning BLUE on leaves RED untouched. -/
theorem processRequest_frame_witness :
    (processRequest initServerState ⟨.BLUE, true, 1⟩).1.led_states[
        colorIndex LedColor.RED]? =
      initServerState.led_states[colorIndex LedColor.RED]? :=
  processRequest_frame initServerState ⟨.BLUE, true, 1⟩ .RED (by decide)

end LedControl
